import Mathlib

/-!
Verification of the checkpointed S3-polling example
(`examples/integration-patterns/polling-s3.py`).

Timestamps are modelled as integers (an abstract time unit); the lookback
duration is passed directly as a time-unit amount, so the lookback threshold
is `now - lookback`, matching `datetime.now(timezone.utc) - timedelta(...)`.
Object keys, run identifiers and checkpoint contents are strings; Python's
string primitives (`in`, `split`, `startswith`, slicing) are modelled over
character lists so that all definitions reduce in the kernel.
-/

namespace Quarry

/-- Python's substring test `pat in key`, on the character lists. -/
def strContains (key pat : String) : Bool :=
  decide (pat.data <:+: key.data)

/-- Python's `pre.startswith` test, on the character lists. -/
def pyStartsWith (s pre : String) : Bool :=
  pre.data.isPrefixOf s.data

/-- Python's slice `s[n:]`, on the character lists. -/
def pyDrop (s : String) (n : Nat) : String :=
  String.mk (s.data.drop n)

/-- Character-list worker for Python's `s.split("/")`: `cur` holds the
(reversed) characters of the segment being accumulated. -/
def splitSlashAux (cur : List Char) : List Char → List (List Char)
  | [] => [cur.reverse]
  | c :: cs =>
    if c = '/' then cur.reverse :: splitSlashAux [] cs
    else splitSlashAux (c :: cur) cs

/-- Python's `key.split("/")`: split at every slash, keeping empty segments. -/
def splitSlash (s : String) : List String :=
  (splitSlashAux [] s.data).map String.mk

/-- An object-store listing entry `{key, last_modified}` as consumed from
`page.get("Contents", [])`. -/
structure ObjectEntry where
  key : String
  last_modified : Int
  deriving Repr, DecidableEq

/-- The run-info dict built by `poll_s3`:
`{"run_id": ..., "key": ..., "last_modified": ...}`. -/
structure RunInfo where
  run_id : String
  key : String
  last_modified : Int
  deriving Repr, DecidableEq

/-- The checkpoint dict `{"last_poll": ..., "processed_runs": [...]}`. -/
structure Checkpoint where
  last_poll : Int
  processed_runs : List String
  deriving Repr, DecidableEq

/-- The `for part in key.split("/")` loop body of `parse_run_id_from_key`:
return the first part starting with `"run_id="`, with the 7-character marker
removed (`part[7:]`). -/
def parseLoop : List String → Option String
  | [] => none
  | part :: rest =>
    if pyStartsWith part "run_id=" then some (pyDrop part 7) else parseLoop rest

/-- `parse_run_id_from_key`: extract run_id from an S3 key like
`source=.../run_id=xyz/...`. -/
def parse_run_id_from_key (key : String) : Option String :=
  parseLoop (splitSlash key)

/-- The completion-marker substring `poll_s3` looks for in keys. -/
def completionMarker : String := "event_type=run_complete"

/-- The inner filtering loop of `poll_s3` over the listing entries (pagination
only concatenates the per-page `Contents` lists, so a single flat list is the
faithful model). `processed` is `set(checkpoint.get("processed_runs", []))`,
`lookback_time` the recency threshold, `seen` the `seen_run_ids` set
accumulated so far; surviving entries are appended to `new_runs` in listing
order. -/
def pollLoop (processed : List String) (lookback_time : Int) :
    List ObjectEntry → List String → List RunInfo
  | [], _ => []
  | e :: rest, seen =>
    if e.last_modified < lookback_time then
      pollLoop processed lookback_time rest seen
    else if strContains e.key completionMarker = false then
      pollLoop processed lookback_time rest seen
    else
      match parse_run_id_from_key e.key with
      | none => pollLoop processed lookback_time rest seen
      | some rid =>
        -- `if not run_id:` in Python is true both for None and for ""
        if rid = "" then pollLoop processed lookback_time rest seen
        else if rid ∈ processed then pollLoop processed lookback_time rest seen
        else if rid ∈ seen then pollLoop processed lookback_time rest seen
        else
          { run_id := rid, key := e.key, last_modified := e.last_modified } ::
            pollLoop processed lookback_time rest (rid :: seen)

/-- `poll_s3`. `hasBoto3` models the `HAS_BOTO3` module flag; when false the
fixed simulated result is returned. Otherwise the paginated listing under
`(bucket, prefix)` is modelled by `listing`, and the entries are filtered
against the checkpoint with threshold `now - lookback`. -/
def poll_s3 (hasBoto3 : Bool) (pfx : String) (listing : List ObjectEntry)
    (checkpoint : Checkpoint) (now lookback : Int) : List RunInfo :=
  if hasBoto3 = false then
    [{ run_id := "simulated-run-001",
       key := pfx ++ "/source=demo/day=2026-02-04/run_id=simulated-run-001/",
       last_modified := now }]
  else
    pollLoop checkpoint.processed_runs (now - lookback) listing []

/-- The epoch instant, i.e. the default `"last_poll": "1970-01-01T00:00:00Z"`
in the integer time model. -/
def epochTime : Int := 0

/-- `load_checkpoint`. `file` is the checkpoint file's content when
`checkpoint_path.exists()`, else `none`; `parseJson` models `json.loads` on
that content, where `none` means the content is invalid so `json.loads`
raises, and the exception propagates out of `load_checkpoint` uncaught
(modelled as `.error`). -/
def load_checkpoint (file : Option String)
    (parseJson : String → Option Checkpoint) : Except String Checkpoint :=
  match file with
  | some text =>
    match parseJson text with
    | some cp => Except.ok cp
    | none => Except.error "json.loads raised"
  | none => Except.ok { last_poll := epochTime, processed_runs := [] }

/-- `main`'s per-run loop: on success (`process_run` returns normally, `ok r`)
the run id is appended to `checkpoint["processed_runs"]` and
`processed_count` incremented; on an exception the `ERROR processing <run_id>`
line is printed (collected here as `failed`) and the loop continues with the
next run. Returns the mutated checkpoint, the count and the failed ids. -/
def processLoop (ok : RunInfo → Bool) :
    List RunInfo → Checkpoint → Nat → List String → Checkpoint × Nat × List String
  | [], cp, count, failed => (cp, count, failed)
  | r :: rest, cp, count, failed =>
    if ok r then
      processLoop ok rest
        { cp with processed_runs := cp.processed_runs ++ [r.run_id] }
        (count + 1) failed
    else
      processLoop ok rest cp count (failed ++ [r.run_id])

/-- The observable outcome of one `main` cycle: the final checkpoint value,
the discovered runs, the processed count, the run ids reported as failed, and
the checkpoint values written by `save_checkpoint`, in call order. -/
structure CycleResult where
  checkpoint : Checkpoint
  discovered : List RunInfo
  processed_count : Nat
  failed_run_ids : List String
  saved : List Checkpoint

/-- One cycle of `main` after the checkpoint is loaded as `cp`: poll, process
each discovered run in order, set `checkpoint["last_poll"]` to the current
time and call `save_checkpoint` once. `ok` models whether `process_run`
returns normally for a run; `tScan` is the clock reading taken inside
`poll_s3`, `tEnd` the one taken just before saving. -/
def runCycle (hasBoto3 : Bool) (ok : RunInfo → Bool) (pfx : String)
    (listing : List ObjectEntry) (cp : Checkpoint) (tScan tEnd lookback : Int) :
    CycleResult :=
  let discovered := poll_s3 hasBoto3 pfx listing cp tScan lookback
  let res := processLoop ok discovered cp 0 []
  let final := { res.1 with last_poll := tEnd }
  { checkpoint := final, discovered := discovered,
    processed_count := res.2.1, failed_run_ids := res.2.2, saved := [final] }

/-- The inputs of one polling cycle other than the checkpoint (environment,
listing contents, clock readings, per-run processing outcomes). -/
structure CycleEnv where
  hasBoto3 : Bool
  ok : RunInfo → Bool
  pfx : String
  listing : List ObjectEntry
  tScan : Int
  tEnd : Int
  lookback : Int

/-- Run a sequence of cycles, threading the persisted checkpoint from each
cycle into the next (the checkpoint loaded correctly between cycles). -/
def runCycles : List CycleEnv → Checkpoint → Checkpoint
  | [], cp => cp
  | env :: rest, cp =>
    runCycles rest
      (runCycle env.hasBoto3 env.ok env.pfx env.listing cp
        env.tScan env.tEnd env.lookback).checkpoint

/-- The filter pipeline exactly as claim C1 words it: an entry survives iff
(a) `last_modified` is not older than the threshold, (b) the key contains the
completion marker, (c) a run identifier is extractable from the key, (d) the
identifier is not in the processed set, and (e) it was not yielded earlier in
the same call; survivors are mapped to `RunInfo` records in listing order. -/
def scanSpec (processed : List String) (lookback_time : Int) :
    List ObjectEntry → List String → List RunInfo
  | [], _ => []
  | e :: rest, seen =>
    match parse_run_id_from_key e.key with
    | none => scanSpec processed lookback_time rest seen
    | some rid =>
      if lookback_time ≤ e.last_modified
          ∧ strContains e.key completionMarker = true
          ∧ rid ∉ processed ∧ rid ∉ seen then
        { run_id := rid, key := e.key, last_modified := e.last_modified } ::
          scanSpec processed lookback_time rest (rid :: seen)
      else scanSpec processed lookback_time rest seen

/-- The claim C1 pipeline amended at filter (c): the extracted identifier must
also be nonempty, because Python's `if not run_id:` treats the empty string
like `None`. -/
def scanSpecA (processed : List String) (lookback_time : Int) :
    List ObjectEntry → List String → List RunInfo
  | [], _ => []
  | e :: rest, seen =>
    match parse_run_id_from_key e.key with
    | none => scanSpecA processed lookback_time rest seen
    | some rid =>
      if rid ≠ "" ∧ lookback_time ≤ e.last_modified
          ∧ strContains e.key completionMarker = true
          ∧ rid ∉ processed ∧ rid ∉ seen then
        { run_id := rid, key := e.key, last_modified := e.last_modified } ::
          scanSpecA processed lookback_time rest (rid :: seen)
      else scanSpecA processed lookback_time rest seen

/-- The run-identifier extraction as claim C6 words it: the first segment of
the slash-split key that starts with the literal `"run_id="` has that prefix
stripped; `none` when no segment matches. -/
def extract_run_id_spec (key : String) : Option String :=
  ((splitSlash key).find? fun part => pyStartsWith part "run_id=").map
    fun part => pyDrop part ("run_id=".length)

example : parse_run_id_from_key "a/run_id=xyz/b" = some "xyz" := by decide

example : parse_run_id_from_key "a/b/c" = none := by decide

example : parse_run_id_from_key "a/run_id=/b" = some "" := by decide

example : strContains "abc/event_type=run_complete/x" "event_type=run_complete" = true := by
  decide

example : strContains "abc" "event_type=run_complete" = false := by decide

theorem parseLoop_eq_find (l : List String) :
    parseLoop l =
      (l.find? fun part => pyStartsWith part "run_id=").map
        fun part => pyDrop part ("run_id=".length) := by
  induction l with
  | nil => rfl
  | cons part rest ih =>
    by_cases h : pyStartsWith part "run_id=" = true
    · simp [parseLoop, List.find?, h]
      rfl
    · simp only [parseLoop, List.find?, h, if_neg, Bool.not_eq_true] at *
      simpa [h] using ih

theorem pollLoop_eq_scanSpecA (processed : List String) (lbt : Int) :
    ∀ (listing : List ObjectEntry) (seen : List String),
      pollLoop processed lbt listing seen = scanSpecA processed lbt listing seen := by
  intro listing
  induction listing with
  | nil => intro seen; rfl
  | cons e rest ih =>
    intro seen
    rcases hp : parse_run_id_from_key e.key with _ | rid
    · by_cases hlm : e.last_modified < lbt <;>
        by_cases hmk : strContains e.key completionMarker = true <;>
          simp [pollLoop, scanSpecA, hp, hlm, hmk, ih]
    · by_cases hlm : e.last_modified < lbt
      · have hnle : ¬ lbt ≤ e.last_modified := not_le.mpr hlm
        by_cases hmk : strContains e.key completionMarker = true <;>
          simp [pollLoop, scanSpecA, hp, hlm, hmk, hnle, ih]
      · have hle : lbt ≤ e.last_modified := not_lt.mp hlm
        by_cases hmk : strContains e.key completionMarker = true <;>
          by_cases hem : rid = "" <;>
            by_cases hpr : rid ∈ processed <;>
              by_cases hsn : rid ∈ seen <;>
                simp [pollLoop, scanSpecA, hp, hlm, hmk, hem, hpr, hsn, hle, ih]

theorem scanSpecA_not_seen (processed : List String) (lbt : Int) :
    ∀ (listing : List ObjectEntry) (seen : List String) (rid : String),
      rid ∈ seen → rid ∉ (scanSpecA processed lbt listing seen).map RunInfo.run_id := by
  intro listing
  induction listing with
  | nil => intro seen rid _ hc; simp [scanSpecA] at hc
  | cons e rest ih =>
    intro seen rid hseen hc
    rcases hp : parse_run_id_from_key e.key with _ | rid0
    · rw [scanSpecA] at hc
      simp only [hp] at hc
      exact ih seen rid hseen hc
    · rw [scanSpecA] at hc
      simp only [hp] at hc
      by_cases hcond : rid0 ≠ "" ∧ lbt ≤ e.last_modified
          ∧ strContains e.key completionMarker = true
          ∧ rid0 ∉ processed ∧ rid0 ∉ seen
      · rw [if_pos hcond] at hc
        simp only [List.map_cons, List.mem_cons] at hc
        rcases hc with hc | hc
        · exact hcond.2.2.2.2 (hc ▸ hseen)
        · exact ih (rid0 :: seen) rid (List.mem_cons_of_mem _ hseen) hc
      · rw [if_neg hcond] at hc
        exact ih seen rid hseen hc

theorem scanSpecA_nodup (processed : List String) (lbt : Int) :
    ∀ (listing : List ObjectEntry) (seen : List String),
      ((scanSpecA processed lbt listing seen).map RunInfo.run_id).Nodup := by
  intro listing
  induction listing with
  | nil => intro seen; simp [scanSpecA]
  | cons e rest ih =>
    intro seen
    rcases hp : parse_run_id_from_key e.key with _ | rid0
    · rw [scanSpecA]; simp only [hp]; exact ih seen
    · rw [scanSpecA]; simp only [hp]
      by_cases hcond : rid0 ≠ "" ∧ lbt ≤ e.last_modified
          ∧ strContains e.key completionMarker = true
          ∧ rid0 ∉ processed ∧ rid0 ∉ seen
      · rw [if_pos hcond]
        simp only [List.map_cons, List.nodup_cons]
        exact ⟨scanSpecA_not_seen processed lbt rest (rid0 :: seen) rid0
          (List.mem_cons_self _ _), ih (rid0 :: seen)⟩
      · rw [if_neg hcond]; exact ih seen

theorem scanSpecA_not_processed (processed : List String) (lbt : Int) :
    ∀ (listing : List ObjectEntry) (seen : List String) (rid : String),
      rid ∈ processed →
      rid ∉ (scanSpecA processed lbt listing seen).map RunInfo.run_id := by
  intro listing
  induction listing with
  | nil => intro seen rid _ hc; simp [scanSpecA] at hc
  | cons e rest ih =>
    intro seen rid hmem hc
    rcases hp : parse_run_id_from_key e.key with _ | rid0
    · rw [scanSpecA] at hc; simp only [hp] at hc
      exact ih seen rid hmem hc
    · rw [scanSpecA] at hc; simp only [hp] at hc
      by_cases hcond : rid0 ≠ "" ∧ lbt ≤ e.last_modified
          ∧ strContains e.key completionMarker = true
          ∧ rid0 ∉ processed ∧ rid0 ∉ seen
      · rw [if_pos hcond] at hc
        simp only [List.map_cons, List.mem_cons] at hc
        rcases hc with hc | hc
        · exact hcond.2.2.2.1 (hc ▸ hmem)
        · exact ih (rid0 :: seen) rid hmem hc
      · rw [if_neg hcond] at hc
        exact ih seen rid hmem hc

theorem scanSpecA_complete (processed : List String) (lbt : Int) :
    ∀ (listing : List ObjectEntry) (seen : List String) (e : ObjectEntry) (rid : String),
      e ∈ listing →
      parse_run_id_from_key e.key = some rid → rid ≠ "" →
      lbt ≤ e.last_modified → strContains e.key completionMarker = true →
      rid ∉ processed →
      rid ∈ seen ∨ rid ∈ (scanSpecA processed lbt listing seen).map RunInfo.run_id := by
  intro listing
  induction listing with
  | nil => intro seen e rid he; exact absurd he (List.not_mem_nil e)
  | cons e0 rest ih =>
    intro seen e rid he hp hne hle hmk hnp
    rcases List.mem_cons.mp he with he | he
    · subst he
      rw [scanSpecA]; simp only [hp]
      by_cases hsn : rid ∈ seen
      · exact Or.inl hsn
      · rw [if_pos ⟨hne, hle, hmk, hnp, hsn⟩]
        exact Or.inr (by simp)
    · rcases hp0 : parse_run_id_from_key e0.key with _ | rid0
      · rw [scanSpecA]; simp only [hp0]
        exact ih seen e rid he hp hne hle hmk hnp
      · rw [scanSpecA]; simp only [hp0]
        by_cases hcond : rid0 ≠ "" ∧ lbt ≤ e0.last_modified
            ∧ strContains e0.key completionMarker = true
            ∧ rid0 ∉ processed ∧ rid0 ∉ seen
        · rw [if_pos hcond]
          rcases ih (rid0 :: seen) e rid he hp hne hle hmk hnp with hin | hin
          · rcases List.mem_cons.mp hin with hin | hin
            · exact Or.inr (by simp [hin])
            · exact Or.inl hin
          · exact Or.inr (by simp [hin])
        · rw [if_neg hcond]
          exact ih seen e rid he hp hne hle hmk hnp

theorem scanSpecA_eq_nil (processed : List String) (lbt : Int) :
    ∀ (listing : List ObjectEntry) (seen : List String),
      (∀ e ∈ listing, ∀ rid, parse_run_id_from_key e.key = some rid → rid ≠ "" →
        lbt ≤ e.last_modified → strContains e.key completionMarker = true →
        rid ∈ processed) →
      scanSpecA processed lbt listing seen = [] := by
  intro listing
  induction listing with
  | nil => intro seen _; rfl
  | cons e rest ih =>
    intro seen hall
    rcases hp : parse_run_id_from_key e.key with _ | rid0
    · rw [scanSpecA]; simp only [hp]
      exact ih seen fun e' he' => hall e' (List.mem_cons_of_mem _ he')
    · rw [scanSpecA]; simp only [hp]
      have hcond : ¬ (rid0 ≠ "" ∧ lbt ≤ e.last_modified
          ∧ strContains e.key completionMarker = true
          ∧ rid0 ∉ processed ∧ rid0 ∉ seen) := by
        rintro ⟨hne, hle, hmk, hnp, -⟩
        exact hnp (hall e (List.mem_cons_self _ _) rid0 hp hne hle hmk)
      rw [if_neg hcond]
      exact ih seen fun e' he' => hall e' (List.mem_cons_of_mem _ he')

theorem processLoop_spec (ok : RunInfo → Bool) :
    ∀ (runs : List RunInfo) (cp : Checkpoint) (count : Nat) (failed : List String),
      processLoop ok runs cp count failed =
        ({ cp with processed_runs :=
             cp.processed_runs ++ ((runs.filter fun r => ok r).map RunInfo.run_id) },
         count + (runs.filter fun r => ok r).length,
         failed ++ ((runs.filter fun r => ok r = false).map RunInfo.run_id)) := by
  intro runs
  induction runs with
  | nil => intro cp count failed; simp [processLoop]
  | cons r rest ih =>
    intro cp count failed
    by_cases h : ok r
    · simp [processLoop, h, ih, List.filter_cons, List.append_assoc,
        Nat.add_comm, Nat.add_left_comm, Nat.add_assoc]
    · simp [processLoop, h, ih, List.filter_cons, List.append_assoc]

theorem runCycle_checkpoint (hasBoto3 : Bool) (ok : RunInfo → Bool) (pfx : String)
    (listing : List ObjectEntry) (cp : Checkpoint) (tScan tEnd lookback : Int) :
    (runCycle hasBoto3 ok pfx listing cp tScan tEnd lookback).checkpoint =
      { last_poll := tEnd,
        processed_runs := cp.processed_runs ++
          (((poll_s3 hasBoto3 pfx listing cp tScan lookback).filter
            fun r => ok r).map RunInfo.run_id) } := by
  simp [runCycle, processLoop_spec]

theorem runCycles_processed_mono :
    ∀ (envs : List CycleEnv) (cp : Checkpoint) (r : String),
      r ∈ cp.processed_runs → r ∈ (runCycles envs cp).processed_runs := by
  intro envs
  induction envs with
  | nil => intro cp r h; exact h
  | cons env rest ih =>
    intro cp r h
    rw [runCycles]
    refine ih _ r ?_
    rw [runCycle_checkpoint]
    exact List.mem_append_left _ h

theorem poll_s3_map_nodup (hasBoto3 : Bool) (pfx : String) (listing : List ObjectEntry)
    (cp : Checkpoint) (now lookback : Int) :
    ((poll_s3 hasBoto3 pfx listing cp now lookback).map RunInfo.run_id).Nodup := by
  cases hasBoto3
  · simp [poll_s3]
  · have he : poll_s3 true pfx listing cp now lookback
        = scanSpecA cp.processed_runs (now - lookback) listing [] := by
      simp [poll_s3, pollLoop_eq_scanSpecA]
    rw [he]
    exact scanSpecA_nodup _ _ listing []

/-- C6: `parse_run_id_from_key` is the deterministic pure function the spec
describes: for every key it equals splitting on `/`, finding the first
segment that starts with the literal `"run_id="`, and stripping that prefix,
with `none` when no segment matches; determinism is immediate because the
result is a function of the key alone. -/
theorem C6_parse_run_id (key : String) :
    parse_run_id_from_key key = extract_run_id_spec key :=
  parseLoop_eq_find (splitSlash key)

/-- C10: when boto3 is unavailable, `poll_s3` ignores the checkpoint, the
listing and the lookback and returns the single fixed simulated run
`simulated-run-001` stamped with the current time — for every checkpoint,
including ones whose `processed_runs` already contains that id. -/
theorem C10_simulated_branch (pfx : String) (listing : List ObjectEntry)
    (cp : Checkpoint) (now lookback : Int) :
    poll_s3 false pfx listing cp now lookback =
      [{ run_id := "simulated-run-001",
         key := pfx ++ "/source=demo/day=2026-02-04/run_id=simulated-run-001/",
         last_modified := now }] := rfl

/-- C4: `load_checkpoint` on an absent checkpoint returns the default
(epoch timestamp, empty processed set) without failing, while an existing but
unparseable checkpoint propagates the `json.loads` exception and never yields
any checkpoint value — in particular never the default. -/
theorem C4_load_checkpoint (parseJson : String → Option Checkpoint) :
    load_checkpoint none parseJson =
        Except.ok { last_poll := epochTime, processed_runs := [] }
      ∧ ∀ text, parseJson text = none →
          load_checkpoint (some text) parseJson = Except.error "json.loads raised"
          ∧ ∀ cp, load_checkpoint (some text) parseJson ≠ Except.ok cp := by
  refine ⟨rfl, fun text h => ?_⟩
  simp [load_checkpoint, h]

theorem C4_load_checkpoint_witness :
    load_checkpoint none (fun _ => none) =
        Except.ok { last_poll := epochTime, processed_runs := [] }
      ∧ load_checkpoint (some "garbage") (fun _ => none)
        = Except.error "json.loads raised" :=
  ⟨(C4_load_checkpoint fun _ => none).1,
   ((C4_load_checkpoint fun _ => none).2 "garbage" rfl).1⟩

/-- C1 counterexample: an entry whose key is `run_id=/event_type=run_complete`
passes every filter exactly as the claim states them — it is recent, contains
the completion marker, a run identifier (the empty string) is extractable,
and that identifier is neither processed nor already yielded — so the claimed
pipeline (`scanSpec`) returns its record, yet `poll_s3` returns nothing:
Python's `if not run_id:` also drops an extracted-but-empty identifier. -/
theorem C1_scan_counterexample :
    scanSpec [] 0
        [{ key := "run_id=/event_type=run_complete", last_modified := 0 }] []
        = [{ run_id := "", key := "run_id=/event_type=run_complete",
             last_modified := 0 }]
      ∧ poll_s3 true ""
          [{ key := "run_id=/event_type=run_complete", last_modified := 0 }]
          { last_poll := 0, processed_runs := [] } 0 0 = [] := by
  constructor <;> decide

/-- C1 (amended): `poll_s3` with the listing-based branch returns exactly the
entries that pass, in order and short-circuiting, (a) recency, (b) the
completion-marker substring test, (c) extraction of a NONEMPTY run
identifier, (d) absence from the checkpoint's processed set and (e) absence
among identifiers yielded earlier in the same call, each mapped to
`{run_id, key, last_modified}` in listing order; consequently the run_ids of
one scan's result are pairwise distinct, so two completion markers with the
same extracted id yield exactly one record. -/
theorem C1_scan_amended (pfx : String) (listing : List ObjectEntry)
    (cp : Checkpoint) (now lookback : Int) :
    poll_s3 true pfx listing cp now lookback
        = scanSpecA cp.processed_runs (now - lookback) listing []
      ∧ ((poll_s3 true pfx listing cp now lookback).map RunInfo.run_id).Nodup :=
  ⟨by simp [poll_s3, pollLoop_eq_scanSpecA],
   poll_s3_map_nodup true pfx listing cp now lookback⟩

/-- C5: the recency filter excludes an entry exactly when `last_modified` is
strictly below `now - lookback`: a strictly older entry contributes nothing
to the scan, while an entry exactly at the threshold is not discarded by the
recency filter and (when the remaining filters pass) is included. -/
theorem C5_lookback_boundary (processed : List String) (now lookback : Int)
    (e : ObjectEntry) (rest : List ObjectEntry) (seen : List String) :
    (e.last_modified < now - lookback →
      pollLoop processed (now - lookback) (e :: rest) seen
        = pollLoop processed (now - lookback) rest seen)
    ∧ (∀ rid, e.last_modified = now - lookback →
        strContains e.key completionMarker = true →
        parse_run_id_from_key e.key = some rid → rid ≠ "" →
        rid ∉ processed → rid ∉ seen →
        pollLoop processed (now - lookback) (e :: rest) seen
          = { run_id := rid, key := e.key, last_modified := e.last_modified } ::
            pollLoop processed (now - lookback) rest (rid :: seen)) := by
  constructor
  · intro hlt
    rw [pollLoop, if_pos hlt]
  · intro rid heq hmk hp hne hnp hns
    have hnlt : ¬ e.last_modified < now - lookback := by
      rw [heq]; exact lt_irrefl _
    rw [pollLoop, if_neg hnlt]
    simp [hmk, hp, hne, hnp, hns]

theorem C5_lookback_boundary_witness :
    pollLoop [] 0
        [{ key := "run_id=abc/event_type=run_complete", last_modified := 0 }] []
        = [{ run_id := "abc", key := "run_id=abc/event_type=run_complete",
             last_modified := 0 }]
      ∧ pollLoop [] 0
          [{ key := "run_id=abc/event_type=run_complete", last_modified := -1 }]
          [] = [] := by
  constructor
  · have h := (C5_lookback_boundary [] 0 0
        { key := "run_id=abc/event_type=run_complete", last_modified := 0 } [] []).2
      "abc" (by decide) (by decide) (by decide) (by decide) (by decide) (by decide)
    simpa [pollLoop] using h
  · have h := (C5_lookback_boundary [] 0 0
        { key := "run_id=abc/event_type=run_complete", last_modified := -1 } [] []).1
      (by decide)
    rw [show (0 : Int) - 0 = 0 by decide] at h
    rw [h]
    decide

/-- C8: a key that contains the completion marker but from which no run
identifier can be parsed is silently skipped: the scan over the remaining
entries proceeds exactly as if the malformed entry were absent, and the entry
never produces a `RunInfo`. -/
theorem C8_malformed_key (processed : List String) (lbt : Int)
    (e : ObjectEntry) (rest : List ObjectEntry) (seen : List String)
    (hmk : strContains e.key completionMarker = true)
    (hp : parse_run_id_from_key e.key = none) :
    pollLoop processed lbt (e :: rest) seen = pollLoop processed lbt rest seen := by
  by_cases hlm : e.last_modified < lbt
  · rw [pollLoop, if_pos hlm]
  · rw [pollLoop, if_neg hlm]
    simp [hmk, hp]

theorem C8_malformed_key_witness :
    pollLoop [] 0
        [{ key := "events/event_type=run_complete/file.json", last_modified := 0 },
         { key := "run_id=abc/event_type=run_complete", last_modified := 0 }] []
      = pollLoop [] 0
          [{ key := "run_id=abc/event_type=run_complete", last_modified := 0 }] [] :=
  C8_malformed_key [] 0
    { key := "events/event_type=run_complete/file.json", last_modified := 0 }
    [{ key := "run_id=abc/event_type=run_complete", last_modified := 0 }] []
    (by decide) (by decide)

/-- C3: a run identifier `r` that is in the checkpoint's processed set is
never discovered again by the listing-based scan of any subsequent cycle,
however many cycles (with arbitrary listings, clocks and processing
outcomes) run in between, as long as each cycle's persisted checkpoint is the
one the next cycle loads. -/
theorem C3_no_reprocessing (envs : List CycleEnv) (cp : Checkpoint) (r : String)
    (pfx : String) (listing : List ObjectEntry) (now lookback : Int)
    (h : r ∈ cp.processed_runs) :
    r ∉ (poll_s3 true pfx listing (runCycles envs cp) now lookback).map
      RunInfo.run_id := by
  have hm := runCycles_processed_mono envs cp r h
  have he : poll_s3 true pfx listing (runCycles envs cp) now lookback
      = scanSpecA (runCycles envs cp).processed_runs (now - lookback) listing [] := by
    simp [poll_s3, pollLoop_eq_scanSpecA]
  rw [he]
  exact scanSpecA_not_processed _ _ listing [] r hm

theorem C3_no_reprocessing_witness :
    "abc" ∉ (poll_s3 true "p"
        [{ key := "run_id=abc/event_type=run_complete", last_modified := 5 }]
        (runCycles [⟨true, fun _ => true, "p", [], 1, 2, 1⟩]
          { last_poll := 0, processed_runs := ["abc"] }) 5 1).map RunInfo.run_id :=
  C3_no_reprocessing [⟨true, fun _ => true, "p", [], 1, 2, 1⟩]
    { last_poll := 0, processed_runs := ["abc"] } "abc" "p"
    [{ key := "run_id=abc/event_type=run_complete", last_modified := 5 }] 5 1
    (by decide)

theorem runCycle_discovered (hasBoto3 : Bool) (ok : RunInfo → Bool) (pfx : String)
    (listing : List ObjectEntry) (cp : Checkpoint) (tScan tEnd lookback : Int) :
    (runCycle hasBoto3 ok pfx listing cp tScan tEnd lookback).discovered
      = poll_s3 hasBoto3 pfx listing cp tScan lookback := rfl

theorem runCycle_failed (hasBoto3 : Bool) (ok : RunInfo → Bool) (pfx : String)
    (listing : List ObjectEntry) (cp : Checkpoint) (tScan tEnd lookback : Int) :
    (runCycle hasBoto3 ok pfx listing cp tScan tEnd lookback).failed_run_ids
      = ((poll_s3 hasBoto3 pfx listing cp tScan lookback).filter
          fun r => ok r = false).map RunInfo.run_id := by
  simp [runCycle, processLoop_spec]

theorem runCycle_saved (hasBoto3 : Bool) (ok : RunInfo → Bool) (pfx : String)
    (listing : List ObjectEntry) (cp : Checkpoint) (tScan tEnd lookback : Int) :
    (runCycle hasBoto3 ok pfx listing cp tScan tEnd lookback).saved
      = [(runCycle hasBoto3 ok pfx listing cp tScan tEnd lookback).checkpoint] := rfl

/-- C2: in one cycle, exactly the successfully processed runs' ids are
appended to `processed_runs` (a failed run's id is never among the appended
ids), the failed ids are reported in scan order, all discovered runs are
attempted (the appended and failed ids partition the discovered list's
successes and failures in listing order), the final checkpoint's `last_poll`
is the cycle-end time, and the checkpoint is saved exactly once regardless of
how many runs failed. -/
theorem C2_partial_failure (hasBoto3 : Bool) (ok : RunInfo → Bool) (pfx : String)
    (listing : List ObjectEntry) (cp : Checkpoint) (tScan tEnd lookback : Int) :
    ((runCycle hasBoto3 ok pfx listing cp tScan tEnd lookback).checkpoint.processed_runs
        = cp.processed_runs ++
          (((runCycle hasBoto3 ok pfx listing cp tScan tEnd lookback).discovered.filter
            fun r => ok r).map RunInfo.run_id))
      ∧ ((runCycle hasBoto3 ok pfx listing cp tScan tEnd lookback).failed_run_ids
        = (((runCycle hasBoto3 ok pfx listing cp tScan tEnd lookback).discovered.filter
            fun r => ok r = false).map RunInfo.run_id))
      ∧ (∀ r ∈ (runCycle hasBoto3 ok pfx listing cp tScan tEnd lookback).discovered,
          ok r = false →
          r.run_id ∉
            (((runCycle hasBoto3 ok pfx listing cp tScan tEnd lookback).discovered.filter
              fun r => ok r).map RunInfo.run_id))
      ∧ (runCycle hasBoto3 ok pfx listing cp tScan tEnd lookback).checkpoint.last_poll
          = tEnd
      ∧ (runCycle hasBoto3 ok pfx listing cp tScan tEnd lookback).saved
          = [(runCycle hasBoto3 ok pfx listing cp tScan tEnd lookback).checkpoint] := by
  refine ⟨?_, ?_, ?_, ?_, ?_⟩
  · rw [runCycle_checkpoint, runCycle_discovered]
  · rw [runCycle_failed, runCycle_discovered]
  · intro r hr hfail hmem
    have hnd := poll_s3_map_nodup hasBoto3 pfx listing cp tScan lookback
    rw [runCycle_discovered] at hr hmem
    rcases List.mem_map.mp hmem with ⟨r', hr', heq⟩
    have hr'mem := (List.mem_filter.mp hr').1
    have hok' := (List.mem_filter.mp hr').2
    have : r' = r := List.inj_on_of_nodup_map hnd hr'mem hr heq
    rw [this] at hok'
    rw [hfail] at hok'
    exact Bool.false_ne_true hok'
  · rw [runCycle_checkpoint]
  · exact runCycle_saved hasBoto3 ok pfx listing cp tScan tEnd lookback

theorem C2_partial_failure_witness :
    (runCycle true (fun r => !(r.run_id == "run-b")) "p"
        [{ key := "run_id=run-a/event_type=run_complete", last_modified := 0 },
         { key := "run_id=run-b/event_type=run_complete", last_modified := 0 },
         { key := "run_id=run-c/event_type=run_complete", last_modified := 0 }]
        { last_poll := 0, processed_runs := [] } 0 1 0).checkpoint.processed_runs
      = ["run-a", "run-c"]
    ∧ (runCycle true (fun r => !(r.run_id == "run-b")) "p"
        [{ key := "run_id=run-a/event_type=run_complete", last_modified := 0 },
         { key := "run_id=run-b/event_type=run_complete", last_modified := 0 },
         { key := "run_id=run-c/event_type=run_complete", last_modified := 0 }]
        { last_poll := 0, processed_runs := [] } 0 1 0).failed_run_ids
      = ["run-b"]
    ∧ "run-b" ∉
        (((runCycle true (fun r => !(r.run_id == "run-b")) "p"
          [{ key := "run_id=run-a/event_type=run_complete", last_modified := 0 },
           { key := "run_id=run-b/event_type=run_complete", last_modified := 0 },
           { key := "run_id=run-c/event_type=run_complete", last_modified := 0 }]
          { last_poll := 0, processed_runs := [] } 0 1 0).discovered.filter
          fun r => (fun r => !(r.run_id == "run-b")) r).map RunInfo.run_id) := by
  have h := C2_partial_failure true (fun r => !(r.run_id == "run-b")) "p"
    [{ key := "run_id=run-a/event_type=run_complete", last_modified := 0 },
     { key := "run_id=run-b/event_type=run_complete", last_modified := 0 },
     { key := "run_id=run-c/event_type=run_complete", last_modified := 0 }]
    { last_poll := 0, processed_runs := [] } 0 1 0
  refine ⟨?_, ?_, ?_⟩
  · rw [h.1]; decide
  · rw [h.2.1]; decide
  · exact h.2.2.1
      { run_id := "run-b", key := "run_id=run-b/event_type=run_complete",
        last_modified := 0 }
      (by decide) (by decide)

/-- C7: two consecutive cycles over the same listing with no new data in
between — the second cycle scanning with the checkpoint the first cycle
persisted, with every discovered run of the first cycle processed
successfully and the clock not moving backwards — discover zero runs on the
second cycle. -/
theorem C7_idempotence (ok : RunInfo → Bool) (pfx pfx2 : String)
    (listing : List ObjectEntry) (cp : Checkpoint) (t1 tEnd t2 lookback : Int)
    (hok : ∀ r ∈ (runCycle true ok pfx listing cp t1 tEnd lookback).discovered,
      ok r = true)
    (ht : t1 ≤ t2) :
    poll_s3 true pfx2 listing
      (runCycle true ok pfx listing cp t1 tEnd lookback).checkpoint t2 lookback
      = [] := by
  rw [runCycle_discovered] at hok
  have hfilter : (poll_s3 true pfx listing cp t1 lookback).filter (fun r => ok r)
      = poll_s3 true pfx listing cp t1 lookback := List.filter_eq_self.mpr hok
  have hcp : (runCycle true ok pfx listing cp t1 tEnd lookback).checkpoint.processed_runs
      = cp.processed_runs ++
        (poll_s3 true pfx listing cp t1 lookback).map RunInfo.run_id := by
    rw [runCycle_checkpoint, hfilter]
  have hscan1 : poll_s3 true pfx listing cp t1 lookback
      = scanSpecA cp.processed_runs (t1 - lookback) listing [] := by
    simp [poll_s3, pollLoop_eq_scanSpecA]
  have he2 : poll_s3 true pfx2 listing
      (runCycle true ok pfx listing cp t1 tEnd lookback).checkpoint t2 lookback
      = scanSpecA
          (runCycle true ok pfx listing cp t1 tEnd lookback).checkpoint.processed_runs
          (t2 - lookback) listing [] := by
    simp [poll_s3, pollLoop_eq_scanSpecA]
  rw [he2, hcp]
  apply scanSpecA_eq_nil
  intro e he rid hp hne hle hmk
  by_cases hinp : rid ∈ cp.processed_runs
  · exact List.mem_append_left _ hinp
  · have hle1 : t1 - lookback ≤ e.last_modified :=
      le_trans (sub_le_sub_right ht lookback) hle
    rcases scanSpecA_complete cp.processed_runs (t1 - lookback) listing [] e rid
        he hp hne hle1 hmk hinp with h0 | h0
    · exact absurd h0 (List.not_mem_nil rid)
    · refine List.mem_append_right _ ?_
      rw [hscan1]
      exact h0

theorem C7_idempotence_witness :
    poll_s3 true "p"
      [{ key := "run_id=abc/event_type=run_complete", last_modified := 5 }]
      (runCycle true (fun _ => true) "p"
        [{ key := "run_id=abc/event_type=run_complete", last_modified := 5 }]
        { last_poll := 0, processed_runs := [] } 5 6 1).checkpoint 7 1 = [] :=
  C7_idempotence (fun _ => true) "p" "p"
    [{ key := "run_id=abc/event_type=run_complete", last_modified := 5 }]
    { last_poll := 0, processed_runs := [] } 5 6 7 1 (fun _ _ => rfl) (by decide)

/-- C9: each cycle only grows the checkpoint: the prior `processed_runs` list
is a prefix of the new one (entries are appended, never removed or replaced),
and provided the cycle-end clock reading is not before the stored
`last_poll`, the stored `last_poll` never decreases. -/
theorem C9_checkpoint_monotone (hasBoto3 : Bool) (ok : RunInfo → Bool) (pfx : String)
    (listing : List ObjectEntry) (cp : Checkpoint) (tScan tEnd lookback : Int) :
    cp.processed_runs <+:
        (runCycle hasBoto3 ok pfx listing cp tScan tEnd lookback).checkpoint.processed_runs
      ∧ (cp.last_poll ≤ tEnd →
          cp.last_poll ≤
            (runCycle hasBoto3 ok pfx listing cp tScan tEnd lookback).checkpoint.last_poll) := by
  constructor
  · rw [runCycle_checkpoint]
    exact ⟨_, rfl⟩
  · intro h
    rw [runCycle_checkpoint]
    exact h

theorem C9_checkpoint_monotone_witness :
    ["old"] <+:
        (runCycle true (fun _ => true) "p"
          [{ key := "run_id=abc/event_type=run_complete", last_modified := 5 }]
          { last_poll := 3, processed_runs := ["old"] } 5 6 1).checkpoint.processed_runs
      ∧ (3 : Int) ≤
          (runCycle true (fun _ => true) "p"
            [{ key := "run_id=abc/event_type=run_complete", last_modified := 5 }]
            { last_poll := 3, processed_runs := ["old"] } 5 6 1).checkpoint.last_poll := by
  have h := C9_checkpoint_monotone true (fun _ => true) "p"
    [{ key := "run_id=abc/event_type=run_complete", last_modified := 5 }]
    { last_poll := 3, processed_runs := ["old"] } 5 6 1
  exact ⟨h.1, h.2 (by decide)⟩

end Quarry
